import Mathlib

/-!
Verification of the CXI provider messaging engine (`src/prov/cxi/src/cxip_msg.c`)
against its natural-language specification.  The definitions below are shallow
embeddings of the C functions named in their doc comments; theorems settle the
spec claims about them.
-/

namespace CxipMsg

/-- Event types of `union c_event` (`C_EVENT_*`) that the messaging engine
dispatches on.  The encoding is opaque to the engine; only distinctness is
used. -/
inductive CEventType where
  | put
  | putOverflow
  | rendezvous
  | reply
  | ack
  | send
  | link
  | unlink
  | search
  deriving DecidableEq, Repr

/-- Return codes of `enum c_return_code` (`C_RC_*`).  The numeric encoding is
external to the engine (Cassini headers); `rcNoEvent` is the value a zeroed
request carries in its `recv.rc` field and is distinct from `rcOk`. -/
inductive CReturnCode where
  | rcNoEvent
  | rcOk
  | rcNoMatch
  | rcNoSpace
  | rcPtlteSwManaged
  | rcEntryNotFound
  | rcUndeliverable
  deriving DecidableEq, Repr

/-! ### C1: rendezvous receive event counting (`rdzv_recv_req_event`) -/

/-- The per-request rendezvous receive state tracked by `cxip_req.recv` that
`rdzv_recv_req_event` (cxip_msg.c:664) manipulates: the running event count
`rdzv_events`, the `done_notify` flag (set by `issue_rdzv_get` for the
ALT_READ restricted-get protocol), and whether the request has been released
(completion reported and request freed). -/
structure RdzvRecvReq where
  rdzv_events : Nat
  done_notify : Bool
  released : Bool
  deriving DecidableEq, Repr

/-- `total_events` computed at the top of `rdzv_recv_req_event`
(cxip_msg.c:666): `req->recv.done_notify ? 4 : 3`. -/
def totalEvents (r : RdzvRecvReq) : Nat :=
  if r.done_notify then 4 else 3

/-- `rdzv_recv_req_event` (cxip_msg.c:664-680): increment `rdzv_events`; when
the incremented count reaches `total_events`, report the completion and free
the request (modelled by setting `released`). -/
def rdzv_recv_req_event (r : RdzvRecvReq) : RdzvRecvReq :=
  let r1 : RdzvRecvReq := { r with rdzv_events := r.rdzv_events + 1 }
  if r1.rdzv_events = totalEvents r1 then { r1 with released := true } else r1

/-- A freshly allocated rendezvous receive request: zero events counted,
`done_notify` clear, not released (`cxip_evtq_req_alloc` zeros the request). -/
def rdzvInit : RdzvRecvReq :=
  { rdzv_events := 0, done_notify := false, released := false }

/-- One step of the rendezvous receive engine on a live request: either
`rdzv_recv_req_event` counts an event (`cxip_recv_rdzv_cb`,
cxip_msg.c:1602-1832, only invokes it on requests it still holds, i.e. not
yet released), or `issue_rdzv_get` (cxip_msg.c:741) sets `done_notify` while
processing the Rendezvous event of a live request. -/
inductive RdzvStep : RdzvRecvReq → RdzvRecvReq → Prop where
  | count (r : RdzvRecvReq) (h : r.released = false) :
      RdzvStep r (rdzv_recv_req_event r)
  | setDoneNotify (r : RdzvRecvReq) (h : r.released = false) :
      RdzvStep r { r with done_notify := true }

/-- States of a rendezvous receive request reachable from allocation. -/
inductive RdzvReachable : RdzvRecvReq → Prop where
  | init : RdzvReachable rdzvInit
  | step {r r' : RdzvRecvReq} : RdzvReachable r → RdzvStep r r' →
      RdzvReachable r'

/-! ### Deferred-event table (`match_put_event`, claims C2 and C7) -/

/-- Modelled from the spec: `union cxip_match_bits` (§6 wire layout), declared
in the repository's cxip.h which is not under src/.  Raw 64-bit equality of
two match-bit words is field-wise equality of this record. -/
structure MatchBits where
  le_type : Nat := 0
  tagged : Bool := false
  cq_data : Bool := false
  match_comp : Bool := false
  rdzv_done : Bool := false
  tx_id : Nat := 0
  rdzv_id_lo : Nat := 0
  rdzv_id_hi : Nat := 0
  rdzv_lac : Nat := 0
  rdzv_proto : Nat := 0
  tag : Nat := 0
  deriving DecidableEq, Repr

/-- Modelled from the spec: `CXIP_RDZV_ID_CMD_WIDTH` (§6: the low-half width
of the rendezvous id), declared in cxip.h which is not under src/.  Claims
depend only on it being a fixed constant. -/
def rdzvIdCmdWidth : Nat := 8

/-- The target-side view of a `union c_event` (`event->tgt_long`) as read by
the receive path: event type, return code, initiator process, match bits,
rendezvous flag and id, overflow start address, lengths and the
auto-unlink flag. -/
structure TgtEvent where
  event_type : CEventType
  return_code : CReturnCode
  initiator : Nat
  match_bits : MatchBits
  rendezvous : Bool
  rendezvous_id : Nat
  start : Nat
  rlength : Nat
  mlength : Nat
  auto_unlinked : Bool
  deriving DecidableEq, Repr

/-- The full rendezvous id reconstructed from an event:
`(mb.rdzv_id_hi << CXIP_RDZV_ID_CMD_WIDTH) | event->tgt_long.rendezvous_id`
(cxip_msg.c:85-86). -/
def eventRdzvId (ev : TgtEvent) : Nat :=
  ev.match_bits.rdzv_id_hi <<< rdzvIdCmdWidth ||| ev.rendezvous_id

/-- `union cxip_def_event_key` (zero-initialized in `match_put_event`, then
one of its two interpretations is filled in).  Raw equality of two keys is
field-wise equality. -/
structure DefEventKey where
  initiator : Nat := 0
  rdzv_id : Nat := 0
  rdzv : Bool := false
  start_addr : Nat := 0
  deriving DecidableEq, Repr

/-- Key computation of `match_put_event` (cxip_msg.c:82-90): rendezvous
events key on `{initiator, rdzv_id, rdzv=1}`, others on the overflow start
address. -/
def eventDefKey (ev : TgtEvent) : DefEventKey :=
  if ev.rendezvous then
    { initiator := ev.initiator, rdzv_id := eventRdzvId ev, rdzv := true }
  else
    { start_addr := ev.start }

/-- `struct cxip_deferred_event`: the key, the depositing request (by id),
the raw deposited event, the multi-recv bookkeeping fields set by the
Put-Overflow handler, and whether an onloaded `ux_send` record is attached
(flow-control/FI_CLAIM onload). -/
structure DeferredEvent where
  key : DefEventKey
  reqId : Nat
  ev : TgtEvent
  mrecv_start : Nat := 0
  mrecv_len : Nat := 0
  ux_send : Bool := false
  deriving DecidableEq, Repr

/-- Modelled from the spec: `CXIP_DEF_EVENT_HT_BUCKETS` (§3: "bucket count is
a small fixed power-of-two-ish constant (tests may use 64)"), declared in
cxip.h which is not under src/. -/
def defEventHtBuckets : Nat := 64

/-- The deferred-event hash table `rxc->deferred_events.bh`: one entry list
per bucket index. -/
abbrev DefEvTable : Type := Nat → List DeferredEvent

/-- The opposite event type computed at the top of `match_put_event`
(cxip_msg.c:79-80): a Put matches a deposited Put-Overflow and vice versa. -/
def matchEventType (t : CEventType) : CEventType :=
  if t = .put then .putOverflow else .put

/-- The bucket-scan criterion of `match_put_event` (cxip_msg.c:97-101):
identical raw key, opposite event type, identical return code, identical
initiator, identical match bits. -/
def defEvMatches (key : DefEventKey) (ev : TgtEvent) (de : DeferredEvent) : Bool :=
  de.key == key &&
  de.ev.event_type == matchEventType ev.event_type &&
  de.ev.return_code == ev.return_code &&
  de.ev.initiator == ev.initiator &&
  de.ev.match_bits == ev.match_bits

/-- Result of `match_put_event`: the (possibly extended) table, the bucket
index used, the matched or freshly deposited entry, and the `matched` out
parameter. -/
structure MatchPutResult where
  table : DefEvTable
  bucket : Nat
  found : DeferredEvent
  matched : Bool

/-- `match_put_event` (cxip_msg.c:71-123).  `h` is the external `fasthash64`
(third-party hash library), passed as a parameter; `canAlloc` models whether
the `calloc` of a new entry succeeds.  `none` is the NULL return (allocation
failure). -/
def match_put_event (h : DefEventKey → Nat) (tbl : DefEvTable) (reqId : Nat)
    (ev : TgtEvent) (canAlloc : Bool) : Option MatchPutResult :=
  let key := eventDefKey ev
  let bucket := h key % defEventHtBuckets
  match (tbl bucket).find? (defEvMatches key ev) with
  | some de => some ⟨tbl, bucket, de, true⟩
  | none =>
    if canAlloc then
      let de : DeferredEvent := { key := key, reqId := reqId, ev := ev }
      some ⟨fun b => if b = bucket then tbl b ++ [de] else tbl b, bucket, de, false⟩
    else
      none

/-- `free_put_event` (cxip_msg.c:132-137): unlink the entry from its bucket
and free it. -/
def free_put_event (tbl : DefEvTable) (bucket : Nat) (de : DeferredEvent) :
    DefEvTable :=
  fun b => if b = bucket then (tbl b).eraseP (· == de) else tbl b

/-- Assignment of `def_ev->mrecv_start` / `def_ev->mrecv_len` performed by the
Put-Overflow handlers right after `match_put_event` deposited a new entry at
the bucket tail (cxip_msg.c:2029-2031); the update therefore targets the last
entry of the bucket. -/
def setTailMrecv (l : List DeferredEvent) (ms ml : Nat) : List DeferredEvent :=
  match l with
  | [] => []
  | [de] => [{ de with mrecv_start := ms, mrecv_len := ml }]
  | de :: rest => de :: setTailMrecv rest ms ml

/-- Table-level version of `setTailMrecv` for the computed bucket. -/
def setMrecvFields (tbl : DefEvTable) (bucket : Nat) (ms ml : Nat) :
    DefEvTable :=
  fun b => if b = bucket then setTailMrecv (tbl b) ms ml else tbl b

/-- Spec-side wording of "opposite event type (Put vs Put-Overflow)" used to
characterize the bucket-scan criterion (claim C7). -/
def putOverflowOpposite (a b : CEventType) : Prop :=
  (a = .put ∧ b = .putOverflow) ∨ (a = .putOverflow ∧ b = .put)

/-- The multi-recv offset state of a posted receive request used by
`mrecv_req_put_bytes`: the user length and the running start offset. -/
structure RecvReqMrecv where
  ulen : Nat
  start_offset : Nat
  deriving DecidableEq, Repr

/-- `mrecv_req_put_bytes` (cxip_msg.c:895-909): clamp the incoming length to
the remaining buffer space, advance `start_offset`, return the clamped
length. -/
def mrecv_req_put_bytes (r : RecvReqMrecv) (rlen : Nat) :
    RecvReqMrecv × Nat :=
  let res := min (r.ulen - r.start_offset) rlen
  ({ r with start_offset := r.start_offset + res }, res)

/-- The argument tuple of a `cxip_ux_send` invocation (cxip_msg.c:949): the
matched receive request, the overflow-buffer request, the raw Put event, and
the multi-recv start/length pair. -/
structure UxSendCall where
  matchReqId : Nat
  oflowReqId : Nat
  putEv : TgtEvent
  mrecv_start : Nat
  mrecv_len : Nat
  deriving DecidableEq, Repr

/-- Outcome of `cxip_oflow_process_put_event` when it consumed the event:
either the Put was deposited to wait for its Put-Overflow, or it completed a
matched pair by invoking `cxip_ux_send`, or it fed an onloaded/claimed
`ux_send` record (flow-control path, `def_ev->ux_send != NULL`). -/
inductive OflowPutOutcome where
  | deposited
  | progressedUxSend (c : UxSendCall)
  | onloadProgress (searchReqId : Nat)
  deriving DecidableEq, Repr

/-- `cxip_oflow_process_put_event` (cxip_msg.c:1135-1184) invoked with a Put
event on an overflow-buffer request.  `none` models the `-FI_EAGAIN` return
(allocation failure, or `cxip_ux_send` retry). -/
def cxip_oflow_process_put_event (h : DefEventKey → Nat) (tbl : DefEvTable)
    (oflowReqId : Nat) (ev : TgtEvent) (canAlloc : Bool) :
    Option (DefEvTable × OflowPutOutcome) :=
  match match_put_event h tbl oflowReqId ev canAlloc with
  | none => none
  | some res =>
    if res.matched = false then
      some (res.table, .deposited)
    else if res.found.ux_send then
      some (free_put_event res.table res.bucket res.found,
            .onloadProgress res.found.reqId)
    else
      some (free_put_event res.table res.bucket res.found,
            .progressedUxSend
              { matchReqId := res.found.reqId, oflowReqId := oflowReqId,
                putEv := ev, mrecv_start := res.found.mrecv_start,
                mrecv_len := res.found.mrecv_len })

/-- Result of the `C_EVENT_PUT_OVERFLOW` arm of `cxip_recv_cb`: updated
table, updated receive-request offsets, the recorded unlink byte count when
the event auto-unlinked a multi-recv buffer, and the `cxip_ux_send`
invocation when the pairing Put had already been deposited. -/
structure RecvPutOvResult where
  table : DefEvTable
  recv : RecvReqMrecv
  unlinkBytes : Option Nat
  call : Option UxSendCall

/-- The non-zero-length `C_EVENT_PUT_OVERFLOW` arm of `cxip_recv_cb`
(cxip_msg.c:2018-2060): look up / deposit via `match_put_event`, record
`mrecv_start` and `mrecv_len` on the entry, record auto-unlink bookkeeping,
and on a match invoke `cxip_ux_send` with the deposited Put event and free
the entry.  `none` models `-FI_EAGAIN`. -/
def cxip_recv_cb_put_overflow (h : DefEventKey → Nat) (tbl : DefEvTable)
    (recvReqId : Nat) (recv : RecvReqMrecv) (multiRecv : Bool)
    (ev : TgtEvent) (canAlloc : Bool) : Option RecvPutOvResult :=
  match match_put_event h tbl recvReqId ev canAlloc with
  | none => none
  | some res =>
    let ms := recv.start_offset
    let pr := mrecv_req_put_bytes recv ev.rlength
    let au := if multiRecv && ev.auto_unlinked then some (ms + pr.2) else none
    if res.matched = false then
      some ⟨setMrecvFields res.table res.bucket ms pr.2, pr.1, au, none⟩
    else
      some ⟨free_put_event res.table res.bucket res.found, pr.1, au,
            some { matchReqId := recvReqId, oflowReqId := res.found.reqId,
                   putEv := res.found.ev, mrecv_start := ms,
                   mrecv_len := pr.2 }⟩

/-- The observation compared between the two processing orders of a
Put / Put-Overflow pair (claim C2): the receive request's offset state, its
auto-unlink record, the `cxip_ux_send` invocation triggered by the second
event, and the deferred-event table afterwards. -/
structure PairOutcome where
  recv : RecvReqMrecv
  unlinkBytes : Option Nat
  call : UxSendCall
  tableAfter : DefEvTable

/-- Scenario composition for claim C2: the Put event is processed first (via
`cxip_oflow_cb`/`cxip_oflow_process_put_event`), then the matching
Put-Overflow (via `cxip_recv_cb`).  `none` when either handler retries or the
events do not form a deposited-then-triggered pair. -/
def runPutThenOverflow (h : DefEventKey → Nat) (tbl : DefEvTable)
    (recvId oflowId : Nat) (recv : RecvReqMrecv) (multiRecv : Bool)
    (pEv oEv : TgtEvent) : Option PairOutcome :=
  match cxip_oflow_process_put_event h tbl oflowId pEv true with
  | some (tbl1, .deposited) =>
    match cxip_recv_cb_put_overflow h tbl1 recvId recv multiRecv oEv true with
    | some r =>
      match r.call with
      | some c => some ⟨r.recv, r.unlinkBytes, c, r.table⟩
      | none => none
    | none => none
  | _ => none

/-- Scenario composition for claim C2: the Put-Overflow event is processed
first (via `cxip_recv_cb`), then the matching Put (via `cxip_oflow_cb`). -/
def runOverflowThenPut (h : DefEventKey → Nat) (tbl : DefEvTable)
    (recvId oflowId : Nat) (recv : RecvReqMrecv) (multiRecv : Bool)
    (pEv oEv : TgtEvent) : Option PairOutcome :=
  match cxip_recv_cb_put_overflow h tbl recvId recv multiRecv oEv true with
  | some r1 =>
    match r1.call with
    | none =>
      match cxip_oflow_process_put_event h r1.table oflowId pEv true with
      | some (tbl2, .progressedUxSend c) =>
        some ⟨r1.recv, r1.unlinkBytes, c, tbl2⟩
      | _ => none
    | some _ => none
  | none => none

/-! ### RX flow-control state machine (claims C3 and C4) -/

/-- `enum cxip_rxc_state` values manipulated by `cxip_recv_pte_cb` and the
flow-control/onload helpers. -/
inductive RxcState where
  | disabled
  | enabled
  | enabledSoftware
  | pendingPtlteDisable
  | pendingPtlteSoftwareManaged
  | pendingPtlteHardware
  | onloadFlowControl
  | onloadFlowControlReenable
  | flowControl
  deriving DecidableEq, Repr, Fintype

/-- Flow-control / state-change reason (`cxip_fc_reason(event)`): the
software-initiated marker plus the NIC `C_SC_*` reasons dispatched on by
`cxip_recv_pte_cb`. -/
inductive FcReason where
  | softwareInitiated
  | eqFull
  | noMatch
  | unexpectedFail
  | requestFull
  | smAppendFail
  | smUnexpectedFail
  | disUncor
  deriving DecidableEq, Repr, Fintype

/-- Result of the flow-control entry block of `cxip_recv_pte_cb`'s
`C_PTLTE_DISABLED` arm (cxip_msg.c:2928-3006): the saved `prev_state`, the
resulting `new_state` and `state`, and whether the reason switch hit the
fatal default arm. -/
structure FcEntryResult where
  prev_state : RxcState
  new_state : RxcState
  state : RxcState
  fatal : Bool
  deriving DecidableEq, Repr

/-- The flow-control entry block of `cxip_recv_pte_cb` (cxip_msg.c:2928-3006),
reached on a `C_PTLTE_DISABLED` event that starts flow control from state `s`
(one of ENABLED, ENABLED_SOFTWARE, PENDING_PTLTE_DISABLE): save
`prev_state := s`, default `new_state := s`, set `state := ONLOAD_FLOW_CONTROL`,
then dispatch on the reason.  `hybridMode` is
`cxip_env.rx_match_mode == CXIP_PTLTE_HYBRID_MODE`. -/
def pteDisabledFcEntry (s : RxcState) (reason : FcReason) (hybridMode : Bool) :
    FcEntryResult :=
  let base : FcEntryResult :=
    { prev_state := s, new_state := s, state := .onloadFlowControl,
      fatal := false }
  match reason with
  | .softwareInitiated =>
      if hybridMode then { base with new_state := .enabledSoftware } else base
  | .eqFull => { base with state := .onloadFlowControlReenable }
  | .noMatch => { base with state := .onloadFlowControlReenable }
  | .unexpectedFail => base
  | .requestFull => { base with state := .onloadFlowControlReenable }
  | _ => { base with fatal := true }

/-- The successive values assigned to `rxc->state` by the `C_PTLTE_DISABLED`
arm of `cxip_recv_pte_cb` (cxip_msg.c:2877-3015) when entered in state `s`.
`rcNoMatch` is `cxi_event_rc(event) == C_RC_NO_MATCH` (bad drop count,
handler breaks).  An empty list means no assignment (break, ignored race, or
fatal before any assignment). -/
def pteDisabledStateTrace (s : RxcState) (reason : FcReason)
    (rcNoMatch hybridMode : Bool) : List RxcState :=
  if s = .disabled then []
  else if reason = .disUncor then []
  else if rcNoMatch then []
  else if s = .pendingPtlteSoftwareManaged then [.onloadFlowControlReenable]
  else if s ≠ .enabled ∧ s ≠ .enabledSoftware ∧ s ≠ .pendingPtlteDisable then
    []
  else
    let r := pteDisabledFcEntry s reason hybridMode
    if r.state = .onloadFlowControl then [.onloadFlowControl]
    else [.onloadFlowControl, r.state]

/-- Assignments of the `C_PTLTE_ENABLED` arm of `cxip_recv_pte_cb`
(cxip_msg.c:2863-2875); the arm asserts the state is FLOW_CONTROL, DISABLED
or PENDING_PTLTE_HARDWARE and then sets ENABLED. -/
def pteEnabledStateTrace (s : RxcState) : List RxcState :=
  if s = .flowControl ∨ s = .disabled ∨ s = .pendingPtlteHardware then
    [.enabled]
  else []

/-- Assignments of the `C_PTLTE_SOFTWARE_MANAGED` arm of `cxip_recv_pte_cb`
(cxip_msg.c:3017-3101).  `envMsgOffload` is `cxip_env.msg_offload`; the
software-initiated case carries `assert(rxc->state == RXC_DISABLED)`
(cxip_msg.c:3059), treated as a precondition. -/
def pteSwManagedStateTrace (s : RxcState) (reason : FcReason)
    (rcNoMatch envMsgOffload : Bool) : List RxcState :=
  if s = .pendingPtlteDisable then []
  else if rcNoMatch then []
  else if s ≠ .disabled ∧ s ≠ .enabled ∧ s ≠ .pendingPtlteSoftwareManaged then
    []
  else
    match reason with
    | .softwareInitiated =>
        if s = .disabled ∧ !envMsgOffload then [.enabledSoftware] else []
    | .smAppendFail => [.pendingPtlteSoftwareManaged]
    | .smUnexpectedFail => [.pendingPtlteSoftwareManaged]
    | _ => []

/-- Assignment of `cxip_recv_pending_ptlte_disable` (cxip_msg.c:1187-1217):
only an ENABLED context whose `cxip_pte_set_state` succeeds moves to
PENDING_PTLTE_DISABLE. -/
def pendingPtlteDisableStateTrace (s : RxcState) (setStateOk : Bool) :
    List RxcState :=
  if s = .enabled ∧ setStateOk then [.pendingPtlteDisable] else []

/-- Assignment performed by the `C_EVENT_PUT_OVERFLOW` arm of `cxip_recv_cb`
(cxip_msg.c:1971-1972): a freed ULE while in ONLOAD_FLOW_CONTROL signals that
re-enable should be attempted. -/
def recvCbPutOverflowStateTrace (s : RxcState) : List RxcState :=
  if s = .onloadFlowControl then [.onloadFlowControlReenable] else []

/-- Assignment performed by the `C_EVENT_PUT_OVERFLOW` arm of
`cxip_ux_onload_cb` (cxip_msg.c:2650-2651): a ULE freed during onload. -/
def uxOnloadPutOverflowStateTrace (s : RxcState) : List RxcState :=
  if s = .onloadFlowControl then [.onloadFlowControlReenable] else []

/-- Assignment performed by the `C_EVENT_SEARCH` arm of `cxip_ux_onload_cb`
(cxip_msg.c:2670-2672): escalate when transitioning into software-managed
mode. -/
def uxOnloadSearchStateTrace (s newState : RxcState) : List RxcState :=
  if newState = .enabledSoftware ∧ s = .onloadFlowControl then
    [.onloadFlowControlReenable]
  else []

/-- Assignments of `cxip_post_ux_onload_fc` (cxip_msg.c:2453-2510), reached
from `cxip_ux_onload_complete` whose assert restricts the state to
ONLOAD_FLOW_CONTROL_REENABLE (the PENDING_PTLTE_SOFTWARE_MANAGED case goes to
`cxip_post_ux_onload_sw`). -/
def postUxOnloadFcStateTrace (s newState : RxcState) (reenableOk : Bool) :
    List RxcState :=
  if s = .onloadFlowControlReenable then
    if newState = .enabledSoftware ∧ reenableOk then
      [.flowControl, .enabledSoftware]
    else
      [.flowControl]
  else []

/-- Assignment of `cxip_post_ux_onload_sw` (cxip_msg.c:2439-2445). -/
def postUxOnloadSwStateTrace (s : RxcState) : List RxcState :=
  if s = .pendingPtlteSoftwareManaged then [.enabledSoftware] else []

/-- Assignment of `cxip_fc_process_drops` (cxip_msg.c:2297-2311): a
successful re-enable while heading to software-managed mode. -/
def fcProcessDropsStateTrace (s newState : RxcState) (reenableOk : Bool) :
    List RxcState :=
  if s = .flowControl ∧ newState = .enabledSoftware ∧ reenableOk then
    [.enabledSoftware]
  else []

/-- All `RxcState` values. -/
def allRxcStates : List RxcState :=
  [.disabled, .enabled, .enabledSoftware, .pendingPtlteDisable,
   .pendingPtlteSoftwareManaged, .pendingPtlteHardware, .onloadFlowControl,
   .onloadFlowControlReenable, .flowControl]

/-- All `FcReason` values. -/
def allFcReasons : List FcReason :=
  [.softwareInitiated, .eqFull, .noMatch, .unexpectedFail, .requestFull,
   .smAppendFail, .smUnexpectedFail, .disUncor]

/-- Both booleans. -/
def allBools : List Bool := [false, true]

/-- The consecutive `(before, after)` pairs of an assignment trace starting
from state `s`. -/
def chainPairs : RxcState → List RxcState → List (RxcState × RxcState)
  | _, [] => []
  | s, t :: ts => (s, t) :: chainPairs t ts

/-- Every assignment trace any handler in cxip_msg.c can perform on
`rxc->state` when invoked in state `s`, over all parameter values. -/
def rxcStateTraces (s : RxcState) : List (List RxcState) :=
  [pteEnabledStateTrace s]
  ++ (allFcReasons.flatMap fun r =>
        allBools.flatMap fun nm =>
          allBools.map fun hy => pteDisabledStateTrace s r nm hy)
  ++ (allFcReasons.flatMap fun r =>
        allBools.flatMap fun nm =>
          allBools.map fun mo => pteSwManagedStateTrace s r nm mo)
  ++ (allBools.map fun ok => pendingPtlteDisableStateTrace s ok)
  ++ [recvCbPutOverflowStateTrace s, uxOnloadPutOverflowStateTrace s]
  ++ (allRxcStates.map fun ns => uxOnloadSearchStateTrace s ns)
  ++ (allRxcStates.flatMap fun ns =>
        allBools.map fun ok => postUxOnloadFcStateTrace s ns ok)
  ++ [postUxOnloadSwStateTrace s]
  ++ (allRxcStates.flatMap fun ns =>
        allBools.map fun ok => fcProcessDropsStateTrace s ns ok)

/-- All `rxc->state` transitions (consecutive assignment pairs) the engine
can perform, over all entry states and handler parameters. -/
def allRxcTransitionPairs : List (RxcState × RxcState) :=
  allRxcStates.flatMap fun s =>
    (rxcStateTraces s).flatMap fun tr => chainPairs s tr

/-- `x` to `y` is a possible change of `rxc->state` in the engine. -/
def RxcTransition (x y : RxcState) : Prop :=
  (x, y) ∈ allRxcTransitionPairs

instance (x y : RxcState) : Decidable (RxcTransition x y) := by
  unfold RxcTransition; infer_instance

/-- The state-graph edges actually realized by cxip_msg.c (the §4.7 graph
extended by the edges the code additionally takes). -/
def rxcCodeEdges : List (RxcState × RxcState) :=
  [(.disabled, .enabled),
   (.flowControl, .enabled),
   (.pendingPtlteHardware, .enabled),
   (.enabled, .onloadFlowControl),
   (.enabledSoftware, .onloadFlowControl),
   (.pendingPtlteDisable, .onloadFlowControl),
   (.enabled, .pendingPtlteDisable),
   (.onloadFlowControl, .onloadFlowControlReenable),
   (.pendingPtlteSoftwareManaged, .onloadFlowControlReenable),
   (.onloadFlowControlReenable, .flowControl),
   (.flowControl, .enabledSoftware),
   (.pendingPtlteSoftwareManaged, .enabledSoftware),
   (.disabled, .enabledSoftware),
   (.enabled, .pendingPtlteSoftwareManaged),
   (.disabled, .pendingPtlteSoftwareManaged)]

/-! ### Multi-recv parent bookkeeping (claim C5) -/

/-- The bookkeeping state of a multi-recv parent receive request: the user
length, the RXC `min_multi_recv` threshold, `hw_offloaded`, the running
`start_offset` consumed from the buffer, the reported `mrecv_bytes`, the
`mrecv_unlink_bytes`/`auto_unlinked` pair, whether the parent has been
released (`cxip_recv_req_free`), and the `data_len` values of child requests
created but not yet reported. -/
structure MrecvParent where
  ulen : Nat
  min_multi_recv : Nat
  hw_offloaded : Bool
  start_offset : Nat
  mrecv_bytes : Nat
  mrecv_unlink_bytes : Nat
  auto_unlinked : Bool
  released : Bool
  pending : List Nat
  deriving DecidableEq, Repr

/-- A freshly posted multi-recv parent (request zeroed on allocation,
cxip_msg.c:186 and 203-211). -/
def mrecvInit (ulen minMultiRecv : Nat) (hw : Bool) : MrecvParent :=
  { ulen := ulen, min_multi_recv := minMultiRecv, hw_offloaded := hw,
    start_offset := 0, mrecv_bytes := 0, mrecv_unlink_bytes := 0,
    auto_unlinked := false, released := false, pending := [] }

/-- One message landing in the multi-recv buffer, creating a child slice.
Put-Overflow events compute the slice through `mrecv_req_put_bytes` and, on
auto-unlink, record `mrecv_unlink_bytes = mrecv_start + mrecv_len`
(cxip_msg.c:2029-2042); priority-list Put events compute the same values from
the NIC-managed (`manage_local`, in-order) event start offset
(cxip_msg.c:2066-2081).  No further slice events occur after the LE
auto-unlinks. -/
def mrecvSlice (p : MrecvParent) (rlen : Nat) (auto : Bool) : MrecvParent :=
  let ml := min (p.ulen - p.start_offset) rlen
  { p with start_offset := p.start_offset + ml,
           pending := ml :: p.pending,
           auto_unlinked := p.auto_unlinked || auto,
           mrecv_unlink_bytes :=
             if auto then p.start_offset + ml else p.mrecv_unlink_bytes }

/-- The multi-recv block of `recv_req_report` on a child completion of length
`l` (cxip_msg.c:294-325): account `mrecv_bytes`, evaluate the release
condition, free the parent when it holds, and set `FI_MULTI_RECV` on the
child completion (the returned Bool) exactly then. -/
def mrecvReport (p : MrecvParent) (l : Nat) : MrecvParent × Bool :=
  let p1 : MrecvParent :=
    { p with mrecv_bytes := p.mrecv_bytes + l, pending := p.pending.erase l }
  let unlinked : Bool :=
    if p1.hw_offloaded then
      p1.auto_unlinked && (p1.mrecv_bytes == p1.mrecv_unlink_bytes)
    else
      decide (p1.ulen - p1.mrecv_bytes < p1.min_multi_recv)
  ({ p1 with released := unlinked }, unlinked)

/-- One step of the multi-recv parent lifecycle: a slice is created for a
live, not yet auto-unlinked parent, or a previously created child reports its
completion. -/
inductive MrecvStep : MrecvParent → MrecvParent → Prop where
  | slice (p : MrecvParent) (rlen : Nat) (auto : Bool)
      (h1 : p.released = false) (h2 : p.auto_unlinked = false) :
      MrecvStep p (mrecvSlice p rlen auto)
  | report (p : MrecvParent) (l : Nat)
      (h1 : p.released = false) (hl : l ∈ p.pending) :
      MrecvStep p (mrecvReport p l).1

/-- Multi-recv parent states reachable from posting. -/
inductive MrecvReachable : MrecvParent → Prop where
  | init (ulen minMultiRecv : Nat) (hw : Bool) :
      MrecvReachable (mrecvInit ulen minMultiRecv hw)
  | step {p p' : MrecvParent} : MrecvReachable p → MrecvStep p p' →
      MrecvReachable p'

/-! ### Unexpected-send progression (`cxip_ux_send`, claim C6) -/

/-- `struct cxip_ptelist_buf` byte accounting: `cur_offset` and
`unlink_length`. -/
structure OflowBuf where
  cur_offset : Nat
  unlink_length : Nat
  deriving DecidableEq, Repr

/-- `oflow_req_put_bytes` (cxip_msg.c:689-706): zero-byte consumption is a
no-op; otherwise advance `cur_offset` and release the buffer
(`cxip_ptelist_buf_consumed`, the returned Bool) exactly when it reaches
`unlink_length`. -/
def oflow_req_put_bytes (buf : OflowBuf) (bytes : Nat) : OflowBuf × Bool :=
  if bytes = 0 then (buf, false)
  else
    let b : OflowBuf := { buf with cur_offset := buf.cur_offset + bytes }
    (b, b.cur_offset == b.unlink_length)

/-- How `cxip_ux_send` disposes of the matched request after the data copy. -/
inductive UxCompletionAction where
  | rdzvCounted
  | deferredUntilAck
  | reportedAndFreed
  deriving DecidableEq, Repr

/-- Observable result of `cxip_ux_send` on a single (non-multi-recv) receive:
the `data_len` stored in the request, the number of bytes copied out of the
overflow buffer, the overflow buffer state afterwards and whether it was
released, and how the completion is handled. -/
structure UxSendSingleResult where
  data_len : Nat
  copied : Nat
  buf : OflowBuf
  buf_consumed : Bool
  action : UxCompletionAction
  deriving DecidableEq, Repr

/-- `cxip_ux_send` for a single (non-multi-recv) matched receive
(cxip_msg.c:978-1039): clamp `data_len` to `min(rlength, ulen)`, copy
`min(mlength, data_len)` bytes out of the overflow buffer, debit the buffer
by `mlength`, then either defer to the rendezvous engine, defer the
completion behind a match-complete notify, or report and free. -/
def cxip_ux_send_single (ulen : Nat) (buf : OflowBuf) (putEv : TgtEvent) :
    UxSendSingleResult :=
  let dl := if putEv.rlength > ulen then ulen else putEv.rlength
  let copied := min putEv.mlength dl
  let pb := oflow_req_put_bytes buf putEv.mlength
  { data_len := dl, copied := copied, buf := pb.1, buf_consumed := pb.2,
    action :=
      if putEv.rendezvous then .rdzvCounted
      else if putEv.match_bits.match_comp then .deferredUntilAck
      else .reportedAndFreed }

/-! ### Priority-list event router (`cxip_recv_cb`, claim C8) -/

/-- The rendezvous-dispatch predicate of `cxip_recv_cb`
(cxip_msg.c:1992-1996): Reply and Ack events consult the event's rendezvous
bit or an elevated `rdzv_events` count; every other event type consults only
the event's rendezvous bit.  `true` routes the event to
`cxip_recv_rdzv_cb`. -/
def recv_cb_dispatch_rdzv (t : CEventType) (evRendezvous : Bool)
    (rdzv_events : Nat) : Bool :=
  if t = .reply || t = .ack then evRendezvous || decide (rdzv_events ≠ 0)
  else evRendezvous

/-- Observable effect of the eager expected arm of `cxip_recv_cb`'s
`C_EVENT_PUT` case for a single receive (cxip_msg.c:2096-2101). -/
structure EagerPutResult where
  data_len : Nat
  reported : Bool
  freed : Bool
  deriving DecidableEq, Repr

/-- The eager expected Put arm of `cxip_recv_cb` for a non-multi-recv request
(cxip_msg.c:2096-2101): `data_len = mlength`, report the completion, free the
request. -/
def recv_cb_put_eager (mlength : Nat) : EagerPutResult :=
  { data_len := mlength, reported := true, freed := true }

/-! ### TX protocol selection (`_cxip_send_req`, claim C9) -/

/-- `cxip_send_eager_idc` (cxip_msg.c:5078-5082): the message fits the IDC
inject size and IDC for non-inject messages has not been disabled
(`cxip_env.disable_non_inject_msg_idc`). -/
def cxip_send_eager_idc (len injectSize : Nat) (disableIdc : Bool) : Bool :=
  decide (len ≤ injectSize) && !disableIdc

/-- The send protocol selected by `_cxip_send_req`. -/
inductive SendProto where
  | eagerDma
  | idc
  | rdzvPut
  deriving DecidableEq, Repr

/-- `_cxip_send_req` (cxip_msg.c:5084-5101): zero-byte sends use the eager
DMA path; otherwise a non-triggered send with FI_INJECT or an IDC-eligible
length uses the IDC path; otherwise lengths up to `max_eager_size` use eager
DMA; otherwise the rendezvous put path. -/
def send_req_select (len injectSize maxEager : Nat)
    (triggered fiInject disableIdc : Bool) : SendProto :=
  if len = 0 then .eagerDma
  else if !triggered && (fiInject || cxip_send_eager_idc len injectSize disableIdc) then .idc
  else if len ≤ maxEager then .eagerDma
  else .rdzvPut

/-- The protocol selection rule as claim C9 words it: IDC requires
"(FI_INJECT set or len ≤ inject size) and IDC enabled". -/
def send_req_select_claimed (len injectSize maxEager : Nat)
    (triggered fiInject disableIdc : Bool) : SendProto :=
  if len = 0 then .eagerDma
  else if !triggered && (fiInject || decide (len ≤ injectSize)) && !disableIdc then .idc
  else if len ≤ maxEager then .eagerDma
  else .rdzvPut

/-- How `cxip_send_buf_init` prepares the send buffer. -/
inductive SendBufSetup where
  | nothing
  | mapped
  | bounce
  | userDirect
  deriving DecidableEq, Repr

/-- `cxip_send_buf_init` (cxip_msg.c:5437-5514): zero-byte sends need no
buffer; triggered sends register the user buffer; FI_INJECT always copies
into a bounce buffer; IDC-eligible sends bounce only for HMEM sources;
everything else registers the user buffer. -/
def cxip_send_buf_init (len injectSize : Nat)
    (triggered fiInject disableIdc hmem : Bool) : SendBufSetup :=
  if len = 0 then .nothing
  else if triggered then .mapped
  else if fiInject then .bounce
  else if cxip_send_eager_idc len injectSize disableIdc then
    (if hmem then .bounce else .userDirect)
  else .mapped

/-! ### FI_PEEK completion (claim C10) -/

/-- The fields of a FI_PEEK receive request read by
`recv_req_peek_complete` and `recv_req_report`.  A freshly allocated request
is zeroed, so before any matching event `rc` is `rcNoEvent` and
`rlen = 0`. -/
structure PeekReqState where
  rc : CReturnCode
  tag : Nat
  recv_tag : Nat
  rlen : Nat
  data_len : Nat
  unlinked : Bool
  fi_peek : Bool
  deriving DecidableEq, Repr

/-- `recv_req_peek_complete` (cxip_msg.c:1115-1132): restore the posted tag
when no unexpected message matched, and set `data_len = rlen` to avoid
truncation processing. -/
def recv_req_peek_complete (r : PeekReqState) : PeekReqState :=
  let r1 := if r.rc ≠ .rcOk then { r with tag := r.recv_tag } else r
  { r1 with data_len := r1.rlen }

/-- Error codes surfaced on the completion queue by `recv_req_report`. -/
inductive FiErrCode where
  | ecanceled
  | etrunc
  | enomsg
  | eproto
  deriving DecidableEq, Repr

/-- The completion reported by `recv_req_report`: a success event or an
error entry, each carrying the request's `data_len` and `tag`. -/
inductive ReportedCompletion where
  | success (data_len tag : Nat)
  | error (err : FiErrCode) (data_len tag : Nat)
  deriving DecidableEq, Repr

/-- `recv_req_report` for a request with no multi-recv parent
(cxip_msg.c:281-380): success when `rc == C_RC_OK` and nothing was
truncated; otherwise classify the error, with the FI_PEEK not-found case
zeroing `data_len` and reporting `FI_ENOMSG`. -/
def recv_req_report_completion (r : PeekReqState) : ReportedCompletion :=
  let truncated := r.rlen - r.data_len
  if r.rc = .rcOk ∧ truncated = 0 then
    .success r.data_len r.tag
  else if r.unlinked then
    .error .ecanceled r.data_len r.tag
  else if truncated ≠ 0 then
    .error .etrunc r.data_len r.tag
  else if r.fi_peek then
    .error .enomsg 0 r.tag
  else
    .error .eproto r.data_len r.tag

/-- The software-matcher-exhausted FI_PEEK completion path of
`cxip_recv_req_peek` (cxip_msg.c:4006-4009): set `rc = C_RC_NO_MATCH`, then
`recv_req_peek_complete` and the report. -/
def cxip_recv_req_peek_no_match_sw (r : PeekReqState) : ReportedCompletion :=
  recv_req_report_completion (recv_req_peek_complete { r with rc := .rcNoMatch })

/-- The hardware-search-no-match FI_PEEK completion path of
`cxip_ux_peek_cb` (cxip_msg.c:3470-3474): the request's `rc` is left at its
zeroed initial value and `recv_req_peek_complete` runs directly. -/
def cxip_ux_peek_cb_no_match (r : PeekReqState) : ReportedCompletion :=
  recv_req_report_completion (recv_req_peek_complete r)

/-! ### Concrete sample inputs used by counterexamples and witnesses -/

/-- The disable reasons `cxip_recv_pte_cb` enumerates for entering flow
control (all other reasons hit the fatal default arm, cxip_msg.c:3000-3004). -/
def validDisableReasons : List FcReason :=
  [.softwareInitiated, .eqFull, .noMatch, .unexpectedFail, .requestFull]

/-- A rendezvous receive request after three counted events, `done_notify`
never set. -/
def rdzvAfterThree : RdzvRecvReq :=
  rdzv_recv_req_event (rdzv_recv_req_event (rdzv_recv_req_event rdzvInit))

/-- The dispatch rule claim C8 asserts for Put events: rendezvous bit OR
`rdzv_events > 0`. -/
def c8ClaimedPutDispatch (evRendezvous : Bool) (rdzv_events : Nat) : Bool :=
  evRendezvous || decide (0 < rdzv_events)

/-- A concrete non-rendezvous eager Put event (100 bytes landed at overflow
offset 4096). -/
def samplePutEv : TgtEvent :=
  { event_type := .put, return_code := .rcOk, initiator := 5,
    match_bits := {}, rendezvous := false, rendezvous_id := 0,
    start := 4096, rlength := 100, mlength := 100, auto_unlinked := false }

/-- The Put-Overflow event pairing with `samplePutEv`: same start address,
return code, initiator and match bits. -/
def sampleOvEv : TgtEvent :=
  { samplePutEv with event_type := .putOverflow }

/-- A trivial stand-in for `fasthash64` used on concrete inputs. -/
def sampleHash : DefEventKey → Nat := fun _ => 0

/-- The empty deferred-event table. -/
def emptyDefEvTable : DefEvTable := fun _ => []

/-- A multi-recv parent (512-byte buffer, `min_multi_recv` 128, hardware
offloaded) after one 100-byte message has been sliced off and its child
completion reported, with no auto-unlink yet. -/
def sampleMrecvParent : MrecvParent :=
  (mrecvReport (mrecvSlice (mrecvInit 512 128 true) 100 false) 100).1

/-- A freshly posted 512-byte single receive request's offset state. -/
def sampleRecvMrecv : RecvReqMrecv := { ulen := 512, start_offset := 0 }

/-- A concrete FI_PEEK request (posted tag `0x1234`) that matched nothing:
all event-derived fields still zeroed. -/
def samplePeekReq : PeekReqState :=
  { rc := .rcNoEvent, tag := 0, recv_tag := 0x1234, rlen := 0, data_len := 0,
    unlinked := false, fi_peek := true }

/-! ## Theorems -/

/-- Invariant of the rendezvous event counter: a live request has counted
strictly fewer events than its total, a released one exactly its total. -/
lemma rdzv_count_invariant {r : RdzvRecvReq} (h : RdzvReachable r) :
    (r.released = true → r.rdzv_events = totalEvents r) ∧
    (r.released = false → r.rdzv_events < totalEvents r) := by
  induction h with
  | init => simp [rdzvInit, totalEvents]
  | step h1 hs ih =>
    rename_i r r'
    cases hs with
    | count hrel =>
      have hlt := ih.2 hrel
      unfold rdzv_recv_req_event
      dsimp only
      by_cases hc :
          r.rdzv_events + 1 = totalEvents { r with rdzv_events := r.rdzv_events + 1 }
      · rw [if_pos hc]
        refine ⟨fun _ => ?_, fun habs => ?_⟩
        · exact hc
        · simp at habs
      · rw [if_neg hc]
        refine ⟨fun habs => ?_, fun _ => ?_⟩
        · exact absurd habs (by simp [hrel])
        · have hc' : r.rdzv_events + 1 ≠ totalEvents r := hc
          have he : totalEvents { r with rdzv_events := r.rdzv_events + 1 } = totalEvents r := rfl
          show r.rdzv_events + 1 < totalEvents { r with rdzv_events := r.rdzv_events + 1 }
          rw [he]
          omega
    | setDoneNotify hrel =>
      have hlt := ih.2 hrel
      refine ⟨fun habs => absurd habs (by simp [hrel]), fun _ => ?_⟩
      show r.rdzv_events < totalEvents { r with done_notify := true }
      have e4 : totalEvents { r with done_notify := true } = 4 := rfl
      have hle : totalEvents r ≤ 4 := by unfold totalEvents; split <;> omega
      rw [e4]
      omega

/-- C1: for every rendezvous receive request, the counted event total
`rdzv_events` never exceeds 4 when `done_notify` is set and never exceeds 3
otherwise, and the request is released exactly at the
`rdzv_recv_req_event` call where the count reaches that total, so at release
`rdzv_events = done_notify ? 4 : 3`. -/
theorem c1_rdzv_event_count_release (r : RdzvRecvReq) (h : RdzvReachable r) :
    r.rdzv_events ≤ (if r.done_notify then 4 else 3) ∧
    (r.released = true ↔ r.rdzv_events = (if r.done_notify then 4 else 3)) := by
  obtain ⟨h1, h2⟩ := rdzv_count_invariant h
  have htot : totalEvents r = if r.done_notify then 4 else 3 := rfl
  rw [htot] at h1 h2
  constructor
  · cases hr : r.released with
    | true => exact le_of_eq (h1 hr)
    | false => exact le_of_lt (h2 hr)
  · constructor
    · exact h1
    · intro he
      cases hr : r.released with
      | true => rfl
      | false => exact absurd he (Nat.ne_of_lt (h2 hr))

/-- Witness for C1: the request obtained after counting three events from
allocation (with `done_notify` clear) satisfies the invariant; in particular
it is released with exactly 3 events. -/
theorem c1_rdzv_event_count_release_witness :
    rdzvAfterThree.rdzv_events ≤ (if rdzvAfterThree.done_notify then 4 else 3) ∧
    (rdzvAfterThree.released = true ↔
      rdzvAfterThree.rdzv_events = (if rdzvAfterThree.done_notify then 4 else 3)) :=
  c1_rdzv_event_count_release rdzvAfterThree
    (RdzvReachable.step
      (RdzvReachable.step
        (RdzvReachable.step RdzvReachable.init (RdzvStep.count rdzvInit rfl))
        (RdzvStep.count (rdzv_recv_req_event rdzvInit) rfl))
      (RdzvStep.count (rdzv_recv_req_event (rdzv_recv_req_event rdzvInit)) rfl))

/-- Setting the tail entry's multi-recv fields after a tail insert rewrites
exactly the inserted entry. -/
lemma setTailMrecv_append (l : List DeferredEvent) (de : DeferredEvent)
    (ms ml : Nat) :
    setTailMrecv (l ++ [de]) ms ml =
      l ++ [{ de with mrecv_start := ms, mrecv_len := ml }] := by
  induction l with
  | nil => rfl
  | cons a l ih =>
    cases l with
    | nil => rfl
    | cons c l' => exact congrArg (List.cons a) ih

/-- An entry never satisfies the bucket-scan criterion of its own event (the
criterion demands the opposite event type). -/
lemma defEvMatches_self_event (key : DefEventKey) (ev : TgtEvent)
    (de : DeferredEvent) (hde : de.ev.event_type = ev.event_type) :
    defEvMatches key ev de = false := by
  unfold defEvMatches matchEventType
  by_cases hput : ev.event_type = .put <;>
    simp [hde, hput]

/-- C2: for a Put event and its matching Put-Overflow event (same
deferred-event key, opposite event types, identical return code, initiator
and match bits) hitting a table with no prior matching entry, processing the
two events in either arrival order gives the same outcome: the first event
deposits, the second triggers `cxip_ux_send` with the deposited Put event and
the overflow-side bookkeeping values, the receive request ends in the same
state, and the table returns to its initial contents. -/
theorem c2_put_overflow_commute
    (h : DefEventKey → Nat) (tbl : DefEvTable) (recvId oflowId : Nat)
    (recv : RecvReqMrecv) (multiRecv : Bool) (pEv oEv : TgtEvent)
    (hP : pEv.event_type = .put) (hO : oEv.event_type = .putOverflow)
    (hkey : eventDefKey pEv = eventDefKey oEv)
    (hrc : pEv.return_code = oEv.return_code)
    (hinit : pEv.initiator = oEv.initiator)
    (hmb : pEv.match_bits = oEv.match_bits)
    (hclean : ∀ de ∈ tbl (h (eventDefKey pEv) % defEventHtBuckets),
        defEvMatches (eventDefKey pEv) pEv de = false ∧
        defEvMatches (eventDefKey oEv) oEv de = false) :
    runPutThenOverflow h tbl recvId oflowId recv multiRecv pEv oEv =
      some ⟨(mrecv_req_put_bytes recv oEv.rlength).1,
            (if multiRecv && oEv.auto_unlinked then
               some (recv.start_offset + (mrecv_req_put_bytes recv oEv.rlength).2)
             else none),
            { matchReqId := recvId, oflowReqId := oflowId, putEv := pEv,
              mrecv_start := recv.start_offset,
              mrecv_len := (mrecv_req_put_bytes recv oEv.rlength).2 }, tbl⟩ ∧
    runOverflowThenPut h tbl recvId oflowId recv multiRecv pEv oEv =
      some ⟨(mrecv_req_put_bytes recv oEv.rlength).1,
            (if multiRecv && oEv.auto_unlinked then
               some (recv.start_offset + (mrecv_req_put_bytes recv oEv.rlength).2)
             else none),
            { matchReqId := recvId, oflowReqId := oflowId, putEv := pEv,
              mrecv_start := recv.start_offset,
              mrecv_len := (mrecv_req_put_bytes recv oEv.rlength).2 }, tbl⟩ := by
  have hkeyO : eventDefKey oEv = eventDefKey pEv := hkey.symm
  set key := eventDefKey pEv with hkeydef
  set b := h key % defEventHtBuckets with hbdef
  set ms := recv.start_offset with hmsdef
  set ml := (mrecv_req_put_bytes recv oEv.rlength).2 with hmldef
  -- the fresh entries deposited by each order
  set pde : DeferredEvent := { key := key, reqId := oflowId, ev := pEv }
    with hpdedef
  set ode : DeferredEvent := { key := key, reqId := recvId, ev := oEv }
    with hodedef
  set odeM : DeferredEvent :=
    { key := key, reqId := recvId, ev := oEv, mrecv_start := ms,
      mrecv_len := ml } with hodeMdef
  -- scan results on the initial bucket
  have hfindP : (tbl b).find? (defEvMatches key pEv) = none :=
    List.find?_eq_none.mpr fun de hde => by simp [(hclean de hde).1]
  have hfindO : (tbl b).find? (defEvMatches key oEv) = none :=
    List.find?_eq_none.mpr fun de hde => by
      have := (hclean de hde).2
      rw [hkeyO] at this
      simp [this]
  -- the deposited entries satisfy the opposite event's criterion
  have hmatchOpde : defEvMatches key oEv pde = true := by
    simp [defEvMatches, matchEventType, hpdedef, hP, hO, hrc, hinit, hmb]
  have hmatchPodeM : defEvMatches key pEv odeM = true := by
    simp [defEvMatches, matchEventType, hodeMdef, hP, hO, hrc.symm,
      hinit.symm, hmb.symm]
  -- no initial entry equals a deposited entry
  have hneP : ∀ de ∈ tbl b, (de == pde) = false := fun de hde => by
    rcases eq_or_ne de pde with rfl | hne
    · have hfalse := (hclean _ hde).2
      rw [hkeyO, hmatchOpde] at hfalse
      simp at hfalse
    · simp [hne]
  have hneO : ∀ de ∈ tbl b, (de == odeM) = false := fun de hde => by
    rcases eq_or_ne de odeM with rfl | hne
    · have hfalse := (hclean _ hde).1
      rw [hmatchPodeM] at hfalse
      simp at hfalse
    · simp [hne]
  constructor
  · -- Put first, then Put-Overflow
    have e1 : match_put_event h tbl oflowId pEv true =
        some ⟨fun bb => if bb = b then tbl bb ++ [pde] else tbl bb, b, pde,
              false⟩ := by
      simp only [match_put_event, ← hkeydef, ← hbdef, hfindP, ← hpdedef,
        if_true]
    have e2 : cxip_oflow_process_put_event h tbl oflowId pEv true =
        some (fun bb => if bb = b then tbl bb ++ [pde] else tbl bb,
              .deposited) := by
      simp only [cxip_oflow_process_put_event, e1]
      simp
    have hfind2 : (tbl b ++ [pde]).find? (defEvMatches key oEv) = some pde := by
      rw [List.find?_append, hfindO]
      show List.find? (defEvMatches key oEv) [pde] = some pde
      simp [List.find?, hmatchOpde]
    have e3 : match_put_event h
        (fun bb => if bb = b then tbl bb ++ [pde] else tbl bb) recvId oEv
        true =
        some ⟨fun bb => if bb = b then tbl bb ++ [pde] else tbl bb, b, pde,
              true⟩ := by
      simp only [match_put_event, hkeyO, ← hkeydef, ← hbdef, if_true,
        hfind2]
    have herase :
        free_put_event (fun bb => if bb = b then tbl bb ++ [pde] else tbl bb)
          b pde = tbl := by
      funext bb
      unfold free_put_event
      by_cases hbb : bb = b
      · subst hbb
        simp only [if_pos rfl, if_true]
        rw [List.eraseP_append_right _ (fun x hx => by simp [hneP x hx])]
        simp
      · simp [hbb]
    have e4 : cxip_recv_cb_put_overflow h
        (fun bb => if bb = b then tbl bb ++ [pde] else tbl bb) recvId recv
        multiRecv oEv true =
        some ⟨tbl, (mrecv_req_put_bytes recv oEv.rlength).1,
              (if multiRecv && oEv.auto_unlinked then some (ms + ml)
               else none),
              some { matchReqId := recvId, oflowReqId := oflowId,
                     putEv := pEv, mrecv_start := ms, mrecv_len := ml }⟩ := by
      simp only [cxip_recv_cb_put_overflow, e3, herase]
      simp
    simp only [runPutThenOverflow, e2, e4]
  · -- Put-Overflow first, then Put
    have e5 : match_put_event h tbl recvId oEv true =
        some ⟨fun bb => if bb = b then tbl bb ++ [ode] else tbl bb, b, ode,
              false⟩ := by
      simp only [match_put_event, hkeyO, ← hkeydef, ← hbdef, hfindO,
        ← hodedef, if_true]
    have hsetM : setMrecvFields
        (fun bb => if bb = b then tbl bb ++ [ode] else tbl bb) b ms ml =
        fun bb => if bb = b then tbl bb ++ [odeM] else tbl bb := by
      funext bb
      unfold setMrecvFields
      by_cases hbb : bb = b
      · subst hbb
        simp only [if_pos rfl, if_true]
        rw [setTailMrecv_append]
      · simp [hbb]
    have e6 : cxip_recv_cb_put_overflow h tbl recvId recv multiRecv oEv
        true =
        some ⟨fun bb => if bb = b then tbl bb ++ [odeM] else tbl bb,
              (mrecv_req_put_bytes recv oEv.rlength).1,
              (if multiRecv && oEv.auto_unlinked then some (ms + ml)
               else none), none⟩ := by
      simp only [cxip_recv_cb_put_overflow, e5]
      rw [if_pos trivial, ← hmsdef, ← hmldef, hsetM]
    have hfind3 : (tbl b ++ [odeM]).find? (defEvMatches key pEv) =
        some odeM := by
      rw [List.find?_append, hfindP]
      show List.find? (defEvMatches key pEv) [odeM] = some odeM
      simp [List.find?, hmatchPodeM]
    have e7 : match_put_event h
        (fun bb => if bb = b then tbl bb ++ [odeM] else tbl bb) oflowId pEv
        true =
        some ⟨fun bb => if bb = b then tbl bb ++ [odeM] else tbl bb, b, odeM,
              true⟩ := by
      simp only [match_put_event, ← hkeydef, ← hbdef, if_true, hfind3]
    have herase2 :
        free_put_event
          (fun bb => if bb = b then tbl bb ++ [odeM] else tbl bb) b odeM =
          tbl := by
      funext bb
      unfold free_put_event
      by_cases hbb : bb = b
      · subst hbb
        simp only [if_pos rfl, if_true]
        rw [List.eraseP_append_right _ (fun x hx => by simp [hneO x hx])]
        simp
      · simp [hbb]
    have e8 : cxip_oflow_process_put_event h
        (fun bb => if bb = b then tbl bb ++ [odeM] else tbl bb) oflowId pEv
        true =
        some (tbl, .progressedUxSend
          { matchReqId := recvId, oflowReqId := oflowId, putEv := pEv,
            mrecv_start := ms, mrecv_len := ml }) := by
      simp only [cxip_oflow_process_put_event, e7, herase2]
      simp
    simp only [runOverflowThenPut, e6, e8]

/-- Witness for C2: a concrete 100-byte unexpected eager pair processed in
both orders against the empty table yields the identical deposited-then-
triggered outcome. -/
theorem c2_put_overflow_commute_witness :
    runPutThenOverflow sampleHash emptyDefEvTable 1 2 sampleRecvMrecv false
        samplePutEv sampleOvEv =
      some ⟨(mrecv_req_put_bytes sampleRecvMrecv sampleOvEv.rlength).1,
            (if false && sampleOvEv.auto_unlinked then
               some (sampleRecvMrecv.start_offset +
                 (mrecv_req_put_bytes sampleRecvMrecv sampleOvEv.rlength).2)
             else none),
            { matchReqId := 1, oflowReqId := 2, putEv := samplePutEv,
              mrecv_start := sampleRecvMrecv.start_offset,
              mrecv_len :=
                (mrecv_req_put_bytes sampleRecvMrecv sampleOvEv.rlength).2 },
            emptyDefEvTable⟩ ∧
    runOverflowThenPut sampleHash emptyDefEvTable 1 2 sampleRecvMrecv false
        samplePutEv sampleOvEv =
      some ⟨(mrecv_req_put_bytes sampleRecvMrecv sampleOvEv.rlength).1,
            (if false && sampleOvEv.auto_unlinked then
               some (sampleRecvMrecv.start_offset +
                 (mrecv_req_put_bytes sampleRecvMrecv sampleOvEv.rlength).2)
             else none),
            { matchReqId := 1, oflowReqId := 2, putEv := samplePutEv,
              mrecv_start := sampleRecvMrecv.start_offset,
              mrecv_len :=
                (mrecv_req_put_bytes sampleRecvMrecv sampleOvEv.rlength).2 },
            emptyDefEvTable⟩ :=
  c2_put_overflow_commute sampleHash emptyDefEvTable 1 2 sampleRecvMrecv
    false samplePutEv sampleOvEv rfl rfl rfl rfl rfl rfl
    (fun de hde => absurd hde (List.not_mem_nil de))

/-- Counterexample to C3: `cxip_recv_pte_cb` also enters
ONLOAD_FLOW_CONTROL from ENABLED_SOFTWARE (for example on a
`C_SC_FC_REQUEST_FULL` disable of a software-managed endpoint,
cxip_msg.c:2915-2934), not only from ENABLED or PENDING_PTLTE_DISABLE as the
claim states. -/
theorem c3_counterexample :
    RxcTransition .enabledSoftware .onloadFlowControl ∧
    RxcState.enabledSoftware ≠ .enabled ∧
    RxcState.enabledSoftware ≠ .pendingPtlteDisable := by
  decide

set_option maxRecDepth 10000 in
/-- C3 (amended): every change of `rxc->state` lies in the realized edge set
`rxcCodeEdges`; ONLOAD_FLOW_CONTROL is entered only from ENABLED,
ENABLED_SOFTWARE or PENDING_PTLTE_DISABLE, and it advances only to
ONLOAD_FLOW_CONTROL_REENABLE (on a freed ULE, or immediately for the
EQ-full / no-match / request-full reasons, or on the terminating Search when
transitioning to software-managed mode). -/
theorem c3_rxc_state_graph :
    ∀ x y : RxcState, RxcTransition x y → x ≠ y →
      (x, y) ∈ rxcCodeEdges ∧
      (y = .onloadFlowControl →
        x = .enabled ∨ x = .enabledSoftware ∨ x = .pendingPtlteDisable) ∧
      (x = .onloadFlowControl → y = .onloadFlowControlReenable) := by
  decide

/-- Witness for C3 (amended): the ENABLED to ONLOAD_FLOW_CONTROL transition
is a realized edge with the stated entry and exit properties. -/
theorem c3_rxc_state_graph_witness :
    (RxcState.enabled, RxcState.onloadFlowControl) ∈ rxcCodeEdges ∧
    (RxcState.onloadFlowControl = RxcState.onloadFlowControl →
      RxcState.enabled = .enabled ∨ RxcState.enabled = .enabledSoftware ∨
      RxcState.enabled = .pendingPtlteDisable) ∧
    (RxcState.enabled = .onloadFlowControl →
      RxcState.onloadFlowControl = .onloadFlowControlReenable) :=
  c3_rxc_state_graph .enabled .onloadFlowControl (by decide) (by decide)

/-- Counterexample to C4: for the EQ-full reason the engine does not promote
`new_state` to ENABLED_SOFTWARE (it stays at the saved previous state); the
reason instead advances `state` itself to ONLOAD_FLOW_CONTROL_REENABLE
(cxip_msg.c:2960-2967).  The same holds for no-match and request-full. -/
theorem c4_counterexample :
    (pteDisabledFcEntry .enabled .eqFull true).new_state = .enabled ∧
    (pteDisabledFcEntry .enabled .eqFull true).new_state ≠ .enabledSoftware ∧
    (pteDisabledFcEntry .enabled .eqFull true).state =
      .onloadFlowControlReenable := by
  decide

/-- C4 (amended): on a PTLTE_DISABLED event starting flow control the engine
saves `prev_state`, defaults `new_state` to `prev_state`, and promotes
`new_state` to ENABLED_SOFTWARE exactly for the software-initiated reason in
hybrid mode; the EQ-full, no-match and request-full reasons instead advance
`state` to ONLOAD_FLOW_CONTROL_REENABLE, and no enumerated reason is
fatal. -/
theorem c4_fc_entry_new_state :
    ∀ (s : RxcState) (reason : FcReason) (hybrid : Bool),
      reason ∈ validDisableReasons →
      (pteDisabledFcEntry s reason hybrid).prev_state = s ∧
      (pteDisabledFcEntry s reason hybrid).new_state =
        (if reason = .softwareInitiated ∧ hybrid = true then .enabledSoftware
         else s) ∧
      (pteDisabledFcEntry s reason hybrid).state =
        (if reason = .eqFull ∨ reason = .noMatch ∨ reason = .requestFull
         then .onloadFlowControlReenable else .onloadFlowControl) ∧
      (pteDisabledFcEntry s reason hybrid).fatal = false := by
  decide

/-- Witness for C4 (amended): the hybrid software-initiated case from
ENABLED. -/
theorem c4_fc_entry_new_state_witness :
    (pteDisabledFcEntry .enabled .softwareInitiated true).prev_state =
      .enabled ∧
    (pteDisabledFcEntry .enabled .softwareInitiated true).new_state =
      (if FcReason.softwareInitiated = .softwareInitiated ∧ true = true then
        RxcState.enabledSoftware
       else .enabled) ∧
    (pteDisabledFcEntry .enabled .softwareInitiated true).state =
      (if FcReason.softwareInitiated = .eqFull ∨
          FcReason.softwareInitiated = .noMatch ∨
          FcReason.softwareInitiated = .requestFull
       then RxcState.onloadFlowControlReenable
       else .onloadFlowControl) ∧
    (pteDisabledFcEntry .enabled .softwareInitiated true).fatal = false :=
  c4_fc_entry_new_state .enabled .softwareInitiated true (by decide)

/-- Invariant of multi-recv parent bookkeeping: reported plus pending child
bytes equal the consumed frontier, the frontier never exceeds the buffer, and
after auto-unlink `mrecv_unlink_bytes` equals the (frozen) frontier. -/
lemma mrecv_invariant {p : MrecvParent} (h : MrecvReachable p) :
    p.mrecv_bytes + p.pending.sum = p.start_offset ∧
    p.start_offset ≤ p.ulen ∧
    (p.auto_unlinked = true → p.mrecv_unlink_bytes = p.start_offset) := by
  induction h with
  | init => simp [mrecvInit]
  | step h1 hs ih =>
    rename_i p p'
    obtain ⟨i1, i2, i3⟩ := ih
    cases hs with
    | slice rlen auto hrel hau =>
      have hm : min (p.ulen - p.start_offset) rlen ≤ p.ulen - p.start_offset :=
        min_le_left _ _
      refine ⟨?_, ?_, ?_⟩
      · simp only [mrecvSlice, List.sum_cons]
        omega
      · simp only [mrecvSlice]
        omega
      · intro ha
        simp only [mrecvSlice] at ha ⊢
        rw [hau] at ha
        simp only [Bool.false_or] at ha
        rw [if_pos ha]
    | report l hrel hmem =>
      have hsum : p.pending.sum = l + (p.pending.erase l).sum := by
        simpa using (List.perm_cons_erase hmem).sum_eq
      refine ⟨?_, ?_, ?_⟩
      · simp only [mrecvReport]
        omega
      · simpa only [mrecvReport] using i2
      · intro ha
        simp only [mrecvReport] at ha ⊢
        exact i3 ha

/-- Counterexample to C5: a multi-recv parent that has reported a child
before any auto-unlink has `mrecv_bytes = 100 > 0 = mrecv_unlink_bytes`, so
`mrecv_bytes ≤ mrecv_unlink_bytes` does not hold throughout the parent's
lifetime. -/
theorem c5_counterexample :
    MrecvReachable sampleMrecvParent ∧
    sampleMrecvParent.mrecv_bytes = 100 ∧
    sampleMrecvParent.mrecv_unlink_bytes = 0 ∧
    ¬sampleMrecvParent.mrecv_bytes ≤ sampleMrecvParent.mrecv_unlink_bytes := by
  refine ⟨?_, by decide, by decide, by decide⟩
  exact MrecvReachable.step
    (MrecvReachable.step (MrecvReachable.init 512 128 true)
      (MrecvStep.slice _ 100 false rfl rfl))
    (MrecvStep.report _ 100 rfl (by decide))

/-- C5 (amended): once `auto_unlinked` is set,
`mrecv_bytes ≤ mrecv_unlink_bytes ≤ ulen`; a child completion of length `l`
releases the parent exactly when
`hw_offloaded ∧ auto_unlinked ∧ mrecv_bytes + l = mrecv_unlink_bytes` or
`¬hw_offloaded ∧ ulen − (mrecv_bytes + l) < min_multi_recv`, and the
releasing child completion carries the FI_MULTI_RECV flag (the reported
Bool) exactly then. -/
theorem c5_mrecv_release (p : MrecvParent) (hp : MrecvReachable p) :
    (p.auto_unlinked = true →
      p.mrecv_bytes ≤ p.mrecv_unlink_bytes ∧
      p.mrecv_unlink_bytes ≤ p.ulen) ∧
    (∀ l ∈ p.pending,
      ((mrecvReport p l).1.released = true ↔
        (p.hw_offloaded = true ∧ p.auto_unlinked = true ∧
          p.mrecv_bytes + l = p.mrecv_unlink_bytes) ∨
        (p.hw_offloaded = false ∧
          p.ulen - (p.mrecv_bytes + l) < p.min_multi_recv)) ∧
      (mrecvReport p l).2 = (mrecvReport p l).1.released) := by
  obtain ⟨i1, i2, i3⟩ := mrecv_invariant hp
  constructor
  · intro ha
    have := i3 ha
    omega
  · intro l hl
    refine ⟨?_, rfl⟩
    simp only [mrecvReport]
    cases hhw : p.hw_offloaded <;>
      cases hau : p.auto_unlinked <;>
        simp [hhw, hau]

/-- Witness for C5 (amended): a parent whose single 100-byte slice
auto-unlinked the buffer satisfies the inequalities and releases on that
child's completion. -/
theorem c5_mrecv_release_witness :
    ((mrecvSlice (mrecvInit 512 128 true) 100 true).auto_unlinked = true →
      (mrecvSlice (mrecvInit 512 128 true) 100 true).mrecv_bytes ≤
        (mrecvSlice (mrecvInit 512 128 true) 100 true).mrecv_unlink_bytes ∧
      (mrecvSlice (mrecvInit 512 128 true) 100 true).mrecv_unlink_bytes ≤
        (mrecvSlice (mrecvInit 512 128 true) 100 true).ulen) ∧
    (∀ l ∈ (mrecvSlice (mrecvInit 512 128 true) 100 true).pending,
      ((mrecvReport (mrecvSlice (mrecvInit 512 128 true) 100 true) l).1.released = true ↔
        ((mrecvSlice (mrecvInit 512 128 true) 100 true).hw_offloaded = true ∧
          (mrecvSlice (mrecvInit 512 128 true) 100 true).auto_unlinked = true ∧
          (mrecvSlice (mrecvInit 512 128 true) 100 true).mrecv_bytes + l =
            (mrecvSlice (mrecvInit 512 128 true) 100 true).mrecv_unlink_bytes) ∨
        ((mrecvSlice (mrecvInit 512 128 true) 100 true).hw_offloaded = false ∧
          (mrecvSlice (mrecvInit 512 128 true) 100 true).ulen -
            ((mrecvSlice (mrecvInit 512 128 true) 100 true).mrecv_bytes + l) <
            (mrecvSlice (mrecvInit 512 128 true) 100 true).min_multi_recv)) ∧
      (mrecvReport (mrecvSlice (mrecvInit 512 128 true) 100 true) l).2 =
        (mrecvReport (mrecvSlice (mrecvInit 512 128 true) 100 true) l).1.released) :=
  c5_mrecv_release (mrecvSlice (mrecvInit 512 128 true) 100 true)
    (MrecvReachable.step (MrecvReachable.init 512 128 true)
      (MrecvStep.slice _ 100 true rfl rfl))

/-- C6: for a non-rendezvous unexpected send progressed into a single
receive, `cxip_ux_send` sets `data_len = min(rlength, ulen)`, copies
`min(mlength, data_len)` bytes out of the overflow buffer, debits the buffer
by `mlength` (releasing it exactly when `cur_offset` reaches
`unlink_length`), and defers the completion behind a zero-byte notify Put
when the put event's match bits carry `match_comp`, otherwise reports and
frees immediately. -/
theorem c6_ux_send_single_behavior (ulen : Nat) (buf : OflowBuf)
    (ev : TgtEvent) (hrdzv : ev.rendezvous = false) :
    (cxip_ux_send_single ulen buf ev).data_len = min ev.rlength ulen ∧
    (cxip_ux_send_single ulen buf ev).copied =
      min ev.mlength (cxip_ux_send_single ulen buf ev).data_len ∧
    (cxip_ux_send_single ulen buf ev).buf.cur_offset =
      buf.cur_offset + ev.mlength ∧
    (cxip_ux_send_single ulen buf ev).buf.unlink_length =
      buf.unlink_length ∧
    ((cxip_ux_send_single ulen buf ev).buf_consumed = true ↔
      ev.mlength ≠ 0 ∧ buf.cur_offset + ev.mlength = buf.unlink_length) ∧
    (cxip_ux_send_single ulen buf ev).action =
      (if ev.match_bits.match_comp then .deferredUntilAck
       else .reportedAndFreed) := by
  unfold cxip_ux_send_single oflow_req_put_bytes
  refine ⟨?_, rfl, ?_, ?_, ?_, ?_⟩
  · dsimp only
    split <;> omega
  · dsimp only
    split <;> simp_all
  · dsimp only
    split <;> simp_all
  · dsimp only
    split
    · simp_all
    · simp_all
  · simp [hrdzv]

/-- Witness for C6: a concrete 100-byte eager unexpected send into a
512-byte receive against a fresh overflow buffer. -/
theorem c6_ux_send_single_behavior_witness :
    (cxip_ux_send_single 512 ⟨0, 100⟩ samplePutEv).data_len =
      min samplePutEv.rlength 512 ∧
    (cxip_ux_send_single 512 ⟨0, 100⟩ samplePutEv).copied =
      min samplePutEv.mlength
        (cxip_ux_send_single 512 ⟨0, 100⟩ samplePutEv).data_len ∧
    (cxip_ux_send_single 512 ⟨0, 100⟩ samplePutEv).buf.cur_offset =
      (0 : Nat) + samplePutEv.mlength ∧
    (cxip_ux_send_single 512 ⟨0, 100⟩ samplePutEv).buf.unlink_length =
      (100 : Nat) ∧
    ((cxip_ux_send_single 512 ⟨0, 100⟩ samplePutEv).buf_consumed = true ↔
      samplePutEv.mlength ≠ 0 ∧ (0 : Nat) + samplePutEv.mlength = 100) ∧
    (cxip_ux_send_single 512 ⟨0, 100⟩ samplePutEv).action =
      (if samplePutEv.match_bits.match_comp then .deferredUntilAck
       else .reportedAndFreed) :=
  c6_ux_send_single_behavior 512 ⟨0, 100⟩ samplePutEv rfl

/-- Counterexample to C8: a Put event without the rendezvous bit is routed to
the eager path even when the request's `rdzv_events` count is positive; the
`rdzv_events > 0` disjunct applies only to Reply and Ack events
(cxip_msg.c:1992-1996). -/
theorem c8_counterexample :
    recv_cb_dispatch_rdzv .put false 1 = false ∧
    c8ClaimedPutDispatch false 1 = true ∧
    recv_cb_dispatch_rdzv .put false 1 ≠ c8ClaimedPutDispatch false 1 := by
  decide

/-- C8 (amended): in `cxip_recv_cb` a Put event is dispatched to the
rendezvous engine exactly when the event's rendezvous bit is set (the
`rdzv_events > 0` disjunct applies only to Reply and Ack events); the
non-dispatched Put runs the eager expected path, which sets
`data_len = mlength`, reports the completion and frees the request. -/
theorem c8_recv_cb_put_dispatch :
    ∀ (rb : Bool) (n m : Nat),
      recv_cb_dispatch_rdzv .put rb n = rb ∧
      recv_cb_dispatch_rdzv .reply rb n = (rb || decide (n ≠ 0)) ∧
      recv_cb_dispatch_rdzv .ack rb n = (rb || decide (n ≠ 0)) ∧
      recv_cb_put_eager m =
        { data_len := m, reported := true, freed := true } := by
  intro rb n m
  exact ⟨rfl, rfl, rfl, rfl⟩

/-- A successful `List.find?` splits the list into a prefix of failures, the
found element, and a suffix. -/
lemma find?_some_decomp {α : Type} {p : α → Bool} {l : List α} {a : α}
    (h : l.find? p = some a) :
    p a = true ∧ ∃ l₁ l₂, l = l₁ ++ a :: l₂ ∧ ∀ x ∈ l₁, p x = false := by
  induction l with
  | nil => simp at h
  | cons x xs ih =>
    rw [List.find?_cons] at h
    cases hx : p x
    · rw [hx] at h
      obtain ⟨hp, l₁, l₂, rfl, hall⟩ := ih h
      exact ⟨hp, x :: l₁, l₂, rfl, by
        intro y hy
        rcases List.mem_cons.mp hy with rfl | hy2
        · exact hx
        · exact hall y hy2⟩
    · rw [hx] at h
      obtain rfl : x = a := by simpa using h
      exact ⟨hx, [], xs, rfl, by simp⟩

/-- C7: `match_put_event` keys rendezvous events on `{initiator, rdzv_id}`
and others on the overflow start address, selects the bucket by hash modulo
the bucket count, returns `matched = true` exactly for the first bucket entry
with identical raw key, opposite event type, identical return code,
initiator and match bits, otherwise deposits the event verbatim at the
bucket tail with `matched = false`, and on allocation failure returns NULL,
which the callers turn into a retry. -/
theorem c7_match_put_event_correct (h : DefEventKey → Nat) (tbl : DefEvTable)
    (reqId : Nat) (ev : TgtEvent) (canAlloc : Bool) :
    (eventDefKey ev =
      if ev.rendezvous then
        { initiator := ev.initiator, rdzv_id := eventRdzvId ev, rdzv := true,
          start_addr := 0 }
      else
        { initiator := 0, rdzv_id := 0, rdzv := false,
          start_addr := ev.start }) ∧
    (∀ de : DeferredEvent,
      ev.event_type = .put ∨ ev.event_type = .putOverflow →
      (defEvMatches (eventDefKey ev) ev de = true ↔
        de.key = eventDefKey ev ∧
        putOverflowOpposite de.ev.event_type ev.event_type ∧
        de.ev.return_code = ev.return_code ∧
        de.ev.initiator = ev.initiator ∧
        de.ev.match_bits = ev.match_bits)) ∧
    (match match_put_event h tbl reqId ev canAlloc with
     | some res =>
        res.bucket = h (eventDefKey ev) % defEventHtBuckets ∧
        (res.matched = true →
          res.table = tbl ∧
          ∃ l₁ l₂, tbl res.bucket = l₁ ++ res.found :: l₂ ∧
            (∀ de ∈ l₁, defEvMatches (eventDefKey ev) ev de = false) ∧
            defEvMatches (eventDefKey ev) ev res.found = true) ∧
        (res.matched = false →
          canAlloc = true ∧
          (∀ de ∈ tbl res.bucket,
            defEvMatches (eventDefKey ev) ev de = false) ∧
          res.found = { key := eventDefKey ev, reqId := reqId, ev := ev } ∧
          res.table res.bucket = tbl res.bucket ++ [res.found] ∧
          ∀ b, b ≠ res.bucket → res.table b = tbl b)
     | none =>
        canAlloc = false ∧
        ∀ de ∈ tbl (h (eventDefKey ev) % defEventHtBuckets),
          defEvMatches (eventDefKey ev) ev de = false) ∧
    (match_put_event h tbl reqId ev canAlloc = none →
      cxip_oflow_process_put_event h tbl reqId ev canAlloc = none ∧
      ∀ (recvId : Nat) (recv : RecvReqMrecv) (mr : Bool),
        cxip_recv_cb_put_overflow h tbl recvId recv mr ev canAlloc = none) := by
  refine ⟨?_, ?_, ?_, ?_⟩
  · by_cases hr : ev.rendezvous <;> simp [eventDefKey, hr]
  · intro de hty
    unfold defEvMatches putOverflowOpposite matchEventType
    rcases hty with hty | hty <;> rw [hty] <;>
      cases hde : de.ev.event_type <;> simp [hde] <;> tauto
  · rcases hfind : (tbl (h (eventDefKey ev) % defEventHtBuckets)).find?
        (defEvMatches (eventDefKey ev) ev) with _ | de
    · have hAllFalse : ∀ de ∈ tbl (h (eventDefKey ev) % defEventHtBuckets),
          defEvMatches (eventDefKey ev) ev de = false :=
        fun de hde => by simpa using List.find?_eq_none.mp hfind de hde
      cases canAlloc
      · have hm : match_put_event h tbl reqId ev false = none := by
          simp only [match_put_event, hfind]
          rfl
        rw [hm]
        exact ⟨rfl, hAllFalse⟩
      · have hm : match_put_event h tbl reqId ev true =
            some ⟨fun b => if b = h (eventDefKey ev) % defEventHtBuckets then
                    tbl b ++ [{ key := eventDefKey ev, reqId := reqId,
                                ev := ev }]
                  else tbl b,
                  h (eventDefKey ev) % defEventHtBuckets,
                  { key := eventDefKey ev, reqId := reqId, ev := ev },
                  false⟩ := by
          simp only [match_put_event, hfind, if_true]
        rw [hm]
        refine ⟨rfl, fun hfalse => by simp at hfalse, fun _ => ?_⟩
        refine ⟨rfl, hAllFalse, rfl, by simp, ?_⟩
        intro b hb
        simp [hb]
    · have hm : match_put_event h tbl reqId ev canAlloc =
          some ⟨tbl, h (eventDefKey ev) % defEventHtBuckets, de, true⟩ := by
        simp only [match_put_event, hfind]
      rw [hm]
      obtain ⟨hp, l₁, l₂, hsplit, hall⟩ := find?_some_decomp hfind
      exact ⟨rfl, fun _ => ⟨rfl, l₁, l₂, hsplit, hall, hp⟩,
        fun habs => by simp at habs⟩
  · intro hnone
    have hfind : (tbl (h (eventDefKey ev) % defEventHtBuckets)).find?
        (defEvMatches (eventDefKey ev) ev) = none := by
      by_contra hne
      rcases Option.ne_none_iff_exists.mp hne with ⟨de, hde⟩
      rw [match_put_event] at hnone
      rw [← hde] at hnone
      simp at hnone
    have hca : canAlloc = false := by
      cases hc : canAlloc
      · rfl
      · rw [hc] at hnone
        rw [match_put_event, hfind] at hnone
        simp at hnone
    subst hca
    constructor
    · simp only [cxip_oflow_process_put_event, hnone]
    · intro recvId recv mr
      have hm2 : match_put_event h tbl recvId ev false = none := by
        simp only [match_put_event, hfind]
        rfl
      simp only [cxip_recv_cb_put_overflow, hm2]

/-- Witness for C7: on the empty table with allocation failing, the Put
callers both retry. -/
theorem c7_match_put_event_correct_witness :
    cxip_oflow_process_put_event sampleHash emptyDefEvTable 7 samplePutEv
      false = none ∧
    cxip_recv_cb_put_overflow sampleHash emptyDefEvTable 7 sampleRecvMrecv
      false samplePutEv false = none := by
  obtain ⟨-, -, -, hcallers⟩ :=
    c7_match_put_event_correct sampleHash emptyDefEvTable 7 samplePutEv false
  have hnone : match_put_event sampleHash emptyDefEvTable 7 samplePutEv
      false = none := rfl
  exact ⟨(hcallers hnone).1, (hcallers hnone).2 7 sampleRecvMrecv false⟩

/-- Counterexample to C9: a non-triggered FI_INJECT send uses the IDC path
even when `disable_non_inject_msg_idc` turns IDC off (the knob only affects
non-inject messages, cxip_msg.c:5093-5095); the claim's rule
"(FI_INJECT or len ≤ inject size) and IDC enabled" instead selects eager
DMA. -/
theorem c9_counterexample :
    send_req_select 1 64 1024 false true true = .idc ∧
    send_req_select_claimed 1 64 1024 false true true = .eagerDma ∧
    send_req_select 1 64 1024 false true true ≠
      send_req_select_claimed 1 64 1024 false true true := by
  decide

/-- C9 (amended): `_cxip_send_req` selects eager DMA for zero length; IDC for
a non-triggered send with FI_INJECT, or with `len ≤ inject size` and IDC not
disabled for non-inject messages; otherwise eager DMA (with the user buffer
memory-registered by `cxip_send_buf_init`) for `len ≤ max_eager_size`; and
otherwise the rendezvous put path (also with the user buffer
memory-registered). -/
theorem c9_send_protocol_selection :
    ∀ (len injectSize maxEager : Nat)
      (triggered fiInject disableIdc hmem : Bool),
      (len = 0 →
        send_req_select len injectSize maxEager triggered fiInject
          disableIdc = .eagerDma) ∧
      (len ≠ 0 →
        (send_req_select len injectSize maxEager triggered fiInject
            disableIdc = .idc ↔
          triggered = false ∧
            (fiInject = true ∨ (len ≤ injectSize ∧ disableIdc = false)))) ∧
      (len ≠ 0 →
        send_req_select len injectSize maxEager triggered fiInject
            disableIdc ≠ .idc →
        (send_req_select len injectSize maxEager triggered fiInject
            disableIdc = .eagerDma ↔ len ≤ maxEager)) ∧
      (len ≠ 0 →
        send_req_select len injectSize maxEager triggered fiInject
            disableIdc ≠ .idc →
        maxEager < len →
        send_req_select len injectSize maxEager triggered fiInject
          disableIdc = .rdzvPut) ∧
      (len ≠ 0 →
        send_req_select len injectSize maxEager triggered fiInject
            disableIdc = .eagerDma →
        cxip_send_buf_init len injectSize triggered fiInject disableIdc
          hmem = .mapped) ∧
      (len ≠ 0 →
        send_req_select len injectSize maxEager triggered fiInject
            disableIdc = .rdzvPut →
        cxip_send_buf_init len injectSize triggered fiInject disableIdc
          hmem = .mapped) := by
  intro len injectSize maxEager triggered fiInject disableIdc hmem
  unfold send_req_select cxip_send_buf_init cxip_send_eager_idc
  by_cases h0 : len = 0
  · simp [h0]
  · cases triggered <;> cases fiInject <;> cases disableIdc <;>
      by_cases hinj : len ≤ injectSize <;>
        by_cases hme : len ≤ maxEager <;>
          simp [h0, hinj, hme] <;> omega

/-- Witness for C9 (amended): a concrete 100-byte plain send
(`inject_size = 64`, `max_eager_size = 1024`, no FI_INJECT, not triggered,
IDC allowed, host memory). -/
theorem c9_send_protocol_selection_witness :
    ((100 : Nat) = 0 →
      send_req_select 100 64 1024 false false false = .eagerDma) ∧
    ((100 : Nat) ≠ 0 →
      (send_req_select 100 64 1024 false false false = .idc ↔
        false = false ∧ (false = true ∨ (100 ≤ 64 ∧ false = false)))) ∧
    ((100 : Nat) ≠ 0 →
      send_req_select 100 64 1024 false false false ≠ .idc →
      (send_req_select 100 64 1024 false false false = .eagerDma ↔
        100 ≤ 1024)) ∧
    ((100 : Nat) ≠ 0 →
      send_req_select 100 64 1024 false false false ≠ .idc →
      1024 < 100 →
      send_req_select 100 64 1024 false false false = .rdzvPut) ∧
    ((100 : Nat) ≠ 0 →
      send_req_select 100 64 1024 false false false = .eagerDma →
      cxip_send_buf_init 100 64 false false false false = .mapped) ∧
    ((100 : Nat) ≠ 0 →
      send_req_select 100 64 1024 false false false = .rdzvPut →
      cxip_send_buf_init 100 64 false false false false = .mapped) :=
  c9_send_protocol_selection 100 64 1024 false false false false

/-- C10: an FI_PEEK receive that matched no unexpected message — via the
software matcher (which sets `rc = C_RC_NO_MATCH`) or via the hardware
unexpected-list search (which leaves the zeroed `rc = C_RC_NO_EVENT`) —
completes with a CQ error entry carrying error code FI_ENOMSG, `data_len` 0
and the request's original posted tag. -/
theorem c10_peek_no_match_enomsg (r : PeekReqState)
    (hpeek : r.fi_peek = true) (hunl : r.unlinked = false) :
    cxip_recv_req_peek_no_match_sw r = .error .enomsg 0 r.recv_tag ∧
    (r.rc = .rcNoEvent →
      cxip_ux_peek_cb_no_match r = .error .enomsg 0 r.recv_tag) := by
  constructor
  · unfold cxip_recv_req_peek_no_match_sw recv_req_peek_complete
      recv_req_report_completion
    simp [hpeek, hunl]
  · intro hrc
    unfold cxip_ux_peek_cb_no_match recv_req_peek_complete
      recv_req_report_completion
    simp [hpeek, hunl, hrc]

/-- Witness for C10: the concrete unmatched FI_PEEK request with posted tag
`0x1234`. -/
theorem c10_peek_no_match_enomsg_witness :
    cxip_recv_req_peek_no_match_sw samplePeekReq =
      .error .enomsg 0 samplePeekReq.recv_tag ∧
    (samplePeekReq.rc = .rcNoEvent →
      cxip_ux_peek_cb_no_match samplePeekReq =
        .error .enomsg 0 samplePeekReq.recv_tag) :=
  c10_peek_no_match_enomsg samplePeekReq rfl rfl

end CxipMsg
